import Mathlib

/-!
# Verification of the banking-data feeder (faker_generator.py)

Shallow embedding of `src/data-generator/faker_generator.py`.

The program is single-threaded and exception-driven, so it is embedded as a
deterministic function of an explicit environment trace:
* the stdlib `random` module is a stream `Nat → ℚ` of unit samples in `[0,1)`
  together with a running position (one position per `random.*` call);
* the `faker` library draws from its own, separate random stream (it is NOT
  affected by `random.seed`), modelled as a second stream;
* database statement failures are injected by a fault map
  `iteration → statement index → Option ExcClass`;
* connection attempts are an outcome stream `Nat → ConnAttempt`;
* a `KeyboardInterrupt` during the inter-iteration sleep is a Boolean stream.

Decimals and floats are modelled as exact rationals `ℚ`.
-/

section RatEval
/- Batteries marks the `Rat` field operations `@[irreducible]`, which blocks
the elaborator from evaluating concrete rational arithmetic in `decide`
proofs.  The kernel itself reduces them fine; we restore the default
transparency locally for this development. -/
attribute [local semireducible] Rat.add Rat.mul Rat.inv Rat.sub

namespace FakerGen

/-- Python exception classes relevant to the program.  `keyboardInterrupt`
and `systemExit` derive from `BaseException` only; all the others derive
from `Exception` (psycopg2: `Error ⊂ Exception`, with `InterfaceError`,
`OperationalError`, `ProgrammingError`, `IntegrityError`, `DataError`
all subclasses of `Error`). -/
inductive ExcClass
  | keyboardInterrupt
  | systemExit
  | operationalError
  | interfaceError
  | programmingError
  | integrityError
  | dataError
  | otherException
deriving DecidableEq, Repr

/-- Whether the class is a subclass of Python `Exception`.  The handler
`except (Exception, ProgrammingError)` in `run_iteration` catches a raised
exception exactly when this is `true` (the tuple is redundant:
`ProgrammingError ⊂ Exception`). -/
def isException : ExcClass → Bool
  | .keyboardInterrupt => false
  | .systemExit => false
  | _ => true

/-! ## Configuration constants (lines 31-41 of the source) -/

def NUM_CUSTOMERS : Nat := 10
def ACCOUNTS_PER_CUSTOMER : Nat := 2
def NUM_TRANSACTIONS : Nat := 50
def MAX_TXN_AMOUNT : ℚ := 1000
def CURRENCY : String := "USD"
def INITIAL_BALANCE_MIN : ℚ := 10
def INITIAL_BALANCE_MAX : ℚ := 1000
def SLEEP_SECONDS : Nat := 2

/-! ## Random primitives

Every call into the stdlib `random` module consumes one position of the
unit-sample stream.  A unit sample is clamped into `[0,1)` so that the
primitives are total; Python guarantees `random.random() ∈ [0,1)`. -/

/-- Clamp a putative unit sample into `[0,1)` (identity on genuine samples). -/
def clampU (u : ℚ) : ℚ := if 0 ≤ u ∧ u < 1 then u else 0

/-- `random.uniform(a, b)`: `a + (b - a) * random.random()`. -/
def uniformQ (a b u : ℚ) : ℚ := a + (b - a) * clampU u

/-- Uniform index below `n` derived from a unit sample.  (`Rat.floor` is the
computable floor; it agrees with `Int.floor`, see `ratFloor_eq` below.) -/
def pickIdx (u : ℚ) (n : Nat) : Nat := Int.toNat (Rat.floor (clampU u * n))

/-- `random.choice` on a list of identifiers (defaults to 0, unreachable:
the program only calls it on non-empty lists). -/
def pick (l : List Nat) (u : ℚ) : Nat := l.getD (pickIdx u l.length) 0

/-- `random.choice` on a list of strings. -/
def pickS (l : List String) (u : ℚ) : String := l.getD (pickIdx u l.length) ""

/-- `random.randint(lo, hi)`: uniform integer with both ends included. -/
def randint (lo hi : Nat) (u : ℚ) : Nat := lo + pickIdx u (hi - lo + 1)

/-! ## Money helpers (lines 73-75) -/

/-- `Decimal.quantize(Decimal("0.01"), rounding=ROUND_DOWN)`:
truncation toward zero at the cent boundary. -/
def quantizeDown (q : ℚ) : ℚ :=
  if 0 ≤ q then ((Rat.floor (q * 100) : ℤ) : ℚ) / 100
  else -(((Rat.floor (-(q * 100)) : ℤ) : ℚ) / 100)

/-- `random_money` (source lines 73-75): uniform sample between the bounds,
then quantized to cents with `ROUND_DOWN`.  The unit sample `u` stands for
the one `random.uniform` call the function makes. -/
def random_money (min_val max_val : ℚ) (u : ℚ) : ℚ :=
  quantizeDown (uniformQ min_val max_val u)

/-- Python `round(x, 2)`: round to the nearest cent, ties to even
(round half to even), as an integer number of cents. -/
def halfEvenZ (x : ℚ) : ℤ :=
  if x - Rat.floor x < 1/2 then Rat.floor x
  else if 1/2 < x - Rat.floor x then Rat.floor x + 1
  else if 2 ∣ Rat.floor x then Rat.floor x else Rat.floor x + 1

/-- Python `round(x, 2)` as a rational. -/
def pyRound2 (q : ℚ) : ℚ := ((halfEvenZ (q * 100) : ℤ) : ℚ) / 100

/-! ## Entity rows -/

structure Customer where
  id : Nat
  firstName : String
  lastName : String
  email : String
deriving DecidableEq, Repr

structure Account where
  id : Nat
  customerId : Nat
  accountType : String
  balance : ℚ
  currency : String
deriving DecidableEq, Repr

structure Txn where
  accountId : Nat
  txnType : String
  amount : ℚ
  relatedAccountId : Option Nat
  status : String
deriving DecidableEq, Repr

/-- ASCII `str.lower()` on one character (structural, so that concrete runs
reduce; `String.toLower` is defined by well-founded recursion and does not). -/
def lowerChar (c : Char) : Char :=
  if 65 ≤ c.toNat ∧ c.toNat ≤ 90 then Char.ofNat (c.toNat + 32) else c

/-- ASCII `str.lower()`. -/
def lowerStr (s : String) : String := ⟨s.data.map lowerChar⟩

/-- The email built on source line 116:
`f"{first_name.lower()}.{last_name.lower()}.{random.randint(1000,9999)}@example.com"`. -/
def mkEmail (fn ln : String) (suffix : Nat) : String :=
  lowerStr fn ++ "." ++ lowerStr ln ++ "." ++ toString suffix ++ "@example.com"

/-- Stand-in name pools for the external `faker` library; `fake.first_name()`
draws from the random stream owned by faker, not the stdlib one. -/
def firstNames : List String := ["Alice", "Bob", "Carol", "David"]

def lastNames : List String := ["Smith", "Jones", "Taylor", "Brown"]

def fakeFirstName (u : ℚ) : String := pickS firstNames u

def fakeLastName (u : ℚ) : String := pickS lastNames u

def accountTypes : List String := ["SAVINGS", "CHECKING"]

def txnTypes : List String := ["DEPOSIT", "WITHDRAWAL", "TRANSFER"]

/-- One transaction record, source lines 146-158.  `accounts` is the list of
account ids collected this iteration; `g` is the stdlib random stream and
`si` its position.  Returns the row and the new stream position (a TRANSFER
with at least two accounts available consumes one extra draw). -/
def genTxn (accounts : List Nat) (g : Nat → ℚ) (si : Nat) : Txn × Nat :=
  let account_id := pick accounts (g si)
  let txn_type := pickS txnTypes (g (si+1))
  let amount := pyRound2 (uniformQ 1 MAX_TXN_AMOUNT (g (si+2)))
  if txn_type = "TRANSFER" ∧ 1 < accounts.length then
    let related := pick (accounts.filter (fun a => a ≠ account_id)) (g (si+3))
    (⟨account_id, txn_type, amount, some related, "COMPLETED"⟩, si + 4)
  else
    (⟨account_id, txn_type, amount, none, "COMPLETED"⟩, si + 3)

/-! ## Database and iteration state

`DBState` is the committed content of the three tables plus the identity
sequences.  Postgres sequences are not transactional, so the id counters
advance with every successful `INSERT ... RETURNING id` and survive a
rollback. -/

structure DBState where
  customers : List Customer
  accounts : List Account
  transactions : List Txn
  nextCust : Nat
  nextAcct : Nat
deriving DecidableEq, Repr

def dbEmpty : DBState := ⟨[], [], [], 0, 0⟩

/-- In-flight state of one `run_iteration` call: stream positions, the
per-iteration statement counter (used to inject faults), the id sequences,
and the uncommitted rows of the open transaction. -/
structure GenState where
  si : Nat
  fi : Nat
  step : Nat
  nextCust : Nat
  nextAcct : Nat
  pendCust : List Customer
  pendAcct : List Account
  pendTxn : List Txn
deriving DecidableEq, Repr

/-- Fault map for one iteration: statement index (in execution order:
customer inserts, account inserts, transaction inserts, then commit) to the
exception class that statement raises, if any. -/
abbrev FaultMap : Type := Nat → Option ExcClass

/-- Loop 1 (source lines 112-126): insert `n` customers.  The three random
draws happen before `cur.execute`; on a fault the draws stay consumed but
no row or id is produced. -/
def insertCustomersLoop (F : FaultMap) (g fg : Nat → ℚ) :
    Nat → GenState → GenState × Option ExcClass
  | 0, s => (s, none)
  | n+1, s =>
    let fn := fakeFirstName (fg s.fi)
    let ln := fakeLastName (fg (s.fi + 1))
    let suffix := randint 1000 9999 (g s.si)
    let s1 : GenState := { s with si := s.si + 1, fi := s.fi + 2 }
    match F s.step with
    | some e => (s1, some e)
    | none =>
      insertCustomersLoop F g fg n
        { s1 with step := s.step + 1, nextCust := s.nextCust + 1,
                  pendCust := s.pendCust ++ [⟨s.nextCust, fn, ln, mkEmail fn ln suffix⟩] }

/-- Inner body of loop 2 (source lines 130-141): insert `m` accounts for one
customer id.  Two draws per account: account type, then the uniform sample
inside `random_money`. -/
def insertAccountsFor (F : FaultMap) (g : Nat → ℚ) (cid : Nat) :
    Nat → GenState → GenState × Option ExcClass
  | 0, s => (s, none)
  | m+1, s =>
    let account_type := pickS accountTypes (g s.si)
    let initial_balance := random_money INITIAL_BALANCE_MIN INITIAL_BALANCE_MAX (g (s.si + 1))
    let s1 : GenState := { s with si := s.si + 2 }
    match F s.step with
    | some e => (s1, some e)
    | none =>
      insertAccountsFor F g cid m
        { s1 with step := s.step + 1, nextAcct := s.nextAcct + 1,
                  pendAcct := s.pendAcct ++ [⟨s.nextAcct, cid, account_type, initial_balance, CURRENCY⟩] }

/-- Loop 2 (source lines 129-141): for every collected customer id, insert
`ACCOUNTS_PER_CUSTOMER` accounts. -/
def insertAccountsLoop (F : FaultMap) (g : Nat → ℚ) :
    List Nat → GenState → GenState × Option ExcClass
  | [], s => (s, none)
  | cid :: rest, s =>
    match insertAccountsFor F g cid ACCOUNTS_PER_CUSTOMER s with
    | (s1, some e) => (s1, some e)
    | (s1, none) => insertAccountsLoop F g rest s1

/-- Loop 3 (source lines 145-159): insert `n` transactions, each generated
by `genTxn` over the account-id pool collected in this iteration. -/
def insertTxnsLoop (F : FaultMap) (g : Nat → ℚ) :
    Nat → GenState → GenState × Option ExcClass
  | 0, s => (s, none)
  | n+1, s =>
    let r := genTxn (s.pendAcct.map Account.id) g s.si
    let s1 : GenState := { s with si := r.2 }
    match F s.step with
    | some e => (s1, some e)
    | none =>
      insertTxnsLoop F g n { s1 with step := s.step + 1, pendTxn := s.pendTxn ++ [r.1] }

/-- The `try` body of `run_iteration` (source lines 107-161): the three
insert loops followed by `conn.commit()` (the final fault point).  Returns
the in-flight state and the first exception raised, if any. -/
def iterCore (F : FaultMap) (g fg : Nat → ℚ) (si fi : Nat) (db : DBState) :
    GenState × Option ExcClass :=
  let s0 : GenState := ⟨si, fi, 0, db.nextCust, db.nextAcct, [], [], []⟩
  match insertCustomersLoop F g fg NUM_CUSTOMERS s0 with
  | (s1, some e) => (s1, some e)
  | (s1, none) =>
    match insertAccountsLoop F g (s1.pendCust.map Customer.id) s1 with
    | (s2, some e) => (s2, some e)
    | (s2, none) =>
      match insertTxnsLoop F g NUM_TRANSACTIONS s2 with
      | (s3, some e) => (s3, some e)
      | (s3, none) => (s3, F s3.step)

/-- What one call of `run_iteration` did.  `escaped` is the exception that
crossed the iteration boundary, if any: the handler
`except (Exception, ProgrammingError)` (line 164) catches every `Exception`
subclass, rolls back and logs; only `BaseException`-level classes
(`KeyboardInterrupt`, `SystemExit`) escape, without a rollback. -/
structure IterSummary where
  committed : Bool
  rolledBack : Bool
  errorLogged : Bool
  escaped : Option ExcClass
deriving DecidableEq, Repr

structure IterOut where
  summary : IterSummary
  db : DBState
  si : Nat
  fi : Nat
deriving DecidableEq, Repr

/-- `run_iteration` (source lines 106-166) for iteration `k`. -/
def run_iteration (F : Nat → FaultMap) (g fg : Nat → ℚ) (k si fi : Nat)
    (db : DBState) : IterOut :=
  let r := iterCore (F k) g fg si fi db
  match r.2 with
  | none =>
    ⟨⟨true, false, false, none⟩,
     ⟨db.customers ++ r.1.pendCust, db.accounts ++ r.1.pendAcct,
      db.transactions ++ r.1.pendTxn, r.1.nextCust, r.1.nextAcct⟩,
     r.1.si, r.1.fi⟩
  | some e =>
    if isException e then
      ⟨⟨false, true, true, none⟩,
       ⟨db.customers, db.accounts, db.transactions, r.1.nextCust, r.1.nextAcct⟩,
       r.1.si, r.1.fi⟩
    else
      ⟨⟨false, false, false, some e⟩,
       ⟨db.customers, db.accounts, db.transactions, r.1.nextCust, r.1.nextAcct⟩,
       r.1.si, r.1.fi⟩

/-! ## Connection establishment (source lines 80-98) -/

/-- Outcome of one `psycopg2.connect` attempt: success, an
`OperationalError` (the only class the retry loop catches), or any other
exception class. -/
inductive ConnAttempt
  | success
  | failOperational
  | raiseOther (e : ExcClass)
deriving DecidableEq, Repr

inductive ConnOutcome
  | ok
  | exit1
  | raised (e : ExcClass)
deriving DecidableEq, Repr

/-- Result of `connect_db`: how it ended, how many attempts were made, and
how many fixed-delay sleeps (`time.sleep(delay)`, line 96) were taken. -/
structure ConnResult where
  outcome : ConnOutcome
  attempts : Nat
  sleeps : Nat
deriving DecidableEq, Repr

def connectRetries : Nat := 5

def connectDelay : Nat := 3

/-- The retry loop of `connect_db` (lines 82-96), reading attempt outcomes
from the stream `o` starting at position `pos`, with `n` attempts left.
Only `OperationalError` is caught (then one sleep and retry); any other
exception propagates at once; after the loop `sys.exit(1)` runs (line 98). -/
def connectLoop (o : Nat → ConnAttempt) (pos : Nat) : Nat → ConnResult
  | 0 => ⟨.exit1, 0, 0⟩
  | n+1 =>
    match o pos with
    | .success => ⟨.ok, 1, 0⟩
    | .raiseOther e => ⟨.raised e, 1, 0⟩
    | .failOperational =>
      let r := connectLoop o (pos + 1) n
      ⟨r.outcome, r.attempts + 1, r.sleeps + 1⟩

/-- `connect_db()` with the default `retries=5`. -/
def connect_db (o : Nat → ConnAttempt) (pos : Nat) : ConnResult :=
  connectLoop o pos connectRetries

/-! ## Main loop (source lines 171-203)

The whole environment of one process run. -/

structure Trace where
  connOutcomes : Nat → ConnAttempt
  faults : Nat → FaultMap
  sleepInt : Nat → Bool
  g : Nat → ℚ
  fg : Nat → ℚ

/-- State carried between iterations of the `while True` loop. -/
structure LoopState where
  db : DBState
  si : Nat
  fi : Nat
  iter : Nat
  iters : List IterSummary
  reconnects : Nat
  connPos : Nat
deriving DecidableEq, Repr

/-- The final observable behaviour of a run.  `exitCode = none` means the
loop was still running when the observation fuel ran out.  `sessionClosed`
records that the `finally` block (lines 195-203) ran `cur.close()` and
`conn.close()`; every path through the `try` statement ends in that block,
whose own `sys.exit(0)` replaces any in-flight exception. -/
structure RunReport where
  exitCode : Option Nat
  db : DBState
  iters : List IterSummary
  reconnects : Nat
  sessionClosed : Bool
  uncaught : Option ExcClass
deriving DecidableEq, Repr

/-- One pass of the `while True` body (lines 173-182) together with the
exception handling wrapped around the loop (lines 184-203).  Returns either
the final report (the process terminated) or the state for the next pass.

An escaped `InterfaceError` would reach the handler on line 187, which
reconnects — but the handler is outside the `while` loop, so control then
falls into `finally` and the process exits 0 instead of resuming; an escaped
`KeyboardInterrupt` reaches line 184; any other escaped `BaseException`
reaches no handler; in all cases `finally` closes the session and its
`sys.exit(0)` makes the exit status 0. -/
def loopBody (tr : Trace) (loop : Bool) (st : LoopState) : RunReport ⊕ LoopState :=
  let out := run_iteration tr.faults tr.g tr.fg st.iter st.si st.fi st.db
  let iters1 := st.iters ++ [out.summary]
  match out.summary.escaped with
  | some ExcClass.interfaceError =>
    let r := connect_db tr.connOutcomes st.connPos
    Sum.inl ⟨some 0, out.db, iters1,
             st.reconnects + (if r.outcome = .ok then 1 else 0), true, none⟩
  | some _ =>
    Sum.inl ⟨some 0, out.db, iters1, st.reconnects, true, none⟩
  | none =>
    if loop then
      if tr.sleepInt st.iter then
        Sum.inl ⟨some 0, out.db, iters1, st.reconnects, true, none⟩
      else
        Sum.inr ⟨out.db, out.si, out.fi, st.iter + 1, iters1, st.reconnects, st.connPos⟩
    else
      Sum.inl ⟨some 0, out.db, iters1, st.reconnects, true, none⟩

/-- Run the main loop for at most `fuel` passes. -/
def loopRun (tr : Trace) (loop : Bool) : Nat → LoopState → RunReport
  | 0, st => ⟨none, st.db, st.iters, st.reconnects, false, none⟩
  | fuel+1, st =>
    match loopBody tr loop st with
    | Sum.inl rep => rep
    | Sum.inr st1 => loopRun tr loop fuel st1

/-- A whole process run (after configuration checks): the module-level
`connect_db()` on line 100, then the main loop.  If the initial connect
exhausts its retries, `sys.exit(1)` terminates the process before the
`try/finally` exists, with nothing written; if a connect attempt raises a
non-operational error it propagates uncaught (the interpreter exits 1). -/
def runProgram (tr : Trace) (loop : Bool) (fuel : Nat) (db : DBState) : RunReport :=
  let c := connect_db tr.connOutcomes 0
  match c.outcome with
  | .exit1 => ⟨some 1, db, [], 0, false, none⟩
  | .raised e => ⟨some 1, db, [], 0, false, some e⟩
  | .ok => loopRun tr loop fuel ⟨db, 0, 0, 0, [], 0, c.attempts⟩

/-- Source lines 53-54: `if args.seed: random.seed(args.seed)`.  A seed of
`0` is falsy in Python, so seeding is skipped and the ambient (entropy
initialised) generator state stays in effect.  `seedStream s` stands in for
the Mersenne Twister stream determined by seed `s`. -/
def seedStream (s : ℤ) : Nat → ℚ :=
  fun i => ((s.natAbs + i) * 48271 % 104729 : ℚ) / 104729

def applySeed (seedArg : Option ℤ) (ambient : Nat → ℚ) : Nat → ℚ :=
  match seedArg with
  | none => ambient
  | some s => if s ≠ 0 then seedStream s else ambient

/-! ## Concrete environments used in witnesses and counterexamples -/

/-- The computable `Rat.floor` agrees with the `Int.floor` of the ordered field. -/
theorem ratFloor_eq (q : ℚ) : Rat.floor q = ⌊q⌋ :=
  (Rat.floor_def' q).trans Rat.floor_def.symm

/-! ## Basic facts about the random primitives -/

theorem clampU_nonneg (u : ℚ) : 0 ≤ clampU u := by
  unfold clampU; split
  · exact (by assumption : 0 ≤ u ∧ u < 1).1
  · exact le_refl 0

theorem clampU_lt_one (u : ℚ) : clampU u < 1 := by
  unfold clampU; split
  · exact (by assumption : 0 ≤ u ∧ u < 1).2
  · norm_num

theorem pickIdx_lt (u : ℚ) {n : Nat} (hn : 0 < n) : pickIdx u n < n := by
  unfold pickIdx
  rw [ratFloor_eq]
  have h0 : (0:ℚ) ≤ clampU u * n := by
    have := clampU_nonneg u
    positivity
  have h1 : clampU u * n < n := by
    have hc := clampU_lt_one u
    have hn1 : (0:ℚ) < n := by exact_mod_cast hn
    nlinarith
  have hf1 : ⌊clampU u * (n:ℚ)⌋ < (n:ℤ) := by
    rw [Int.floor_lt]; exact_mod_cast h1
  have hf0 : (0:ℤ) ≤ ⌊clampU u * (n:ℚ)⌋ := Int.floor_nonneg.mpr h0
  omega

theorem pick_mem {l : List Nat} (hl : l ≠ []) (u : ℚ) : pick l u ∈ l := by
  unfold pick
  have hlen : 0 < l.length := List.length_pos.mpr hl
  rw [List.getD_eq_getElem l 0 (pickIdx_lt u hlen)]
  exact List.getElem_mem _

/-- Every list position is reachable by `pick` for a suitable unit sample:
the `random.choice` model covers the whole list. -/
theorem pick_attain {l : List Nat} {i : Nat} (h : i < l.length) :
    pick l (((i : ℚ) + 1/2) / (l.length : ℚ)) = l[i] := by
  have hn : (0:ℚ) < (l.length : ℚ) := by exact_mod_cast Nat.zero_lt_of_lt h
  have hu0 : (0:ℚ) ≤ ((i : ℚ) + 1/2) / (l.length : ℚ) := by positivity
  have hu1 : ((i : ℚ) + 1/2) / (l.length : ℚ) < 1 := by
    rw [div_lt_one hn]
    have : (i : ℚ) + 1 ≤ (l.length : ℚ) := by exact_mod_cast h
    linarith
  have hc : clampU (((i : ℚ) + 1/2) / (l.length : ℚ)) = ((i : ℚ) + 1/2) / (l.length : ℚ) := by
    unfold clampU; rw [if_pos ⟨hu0, hu1⟩]
  have hidx : pickIdx (((i : ℚ) + 1/2) / (l.length : ℚ)) l.length = i := by
    unfold pickIdx
    rw [ratFloor_eq, hc, div_mul_cancel₀ _ (ne_of_gt hn)]
    have : ⌊(i : ℚ) + 1/2⌋ = (i : ℤ) := by
      rw [Int.floor_eq_iff]
      constructor
      · push_cast; linarith
      · push_cast; linarith
    rw [this]; rfl
  unfold pick
  rw [hidx, List.getD_eq_getElem l 0 h]

/-! ## Facts about `uniformQ`, `quantizeDown`, `pyRound2` -/

theorem uniformQ_ge (a b u : ℚ) (hab : a ≤ b) : a ≤ uniformQ a b u := by
  unfold uniformQ
  have h0 := clampU_nonneg u
  nlinarith

theorem uniformQ_le (a b u : ℚ) (hab : a ≤ b) : uniformQ a b u ≤ b := by
  unfold uniformQ
  have h0 := clampU_nonneg u
  have h1 := clampU_lt_one u
  nlinarith

theorem quantizeDown_le (q : ℚ) (hq : 0 ≤ q) : quantizeDown q ≤ q := by
  unfold quantizeDown
  rw [if_pos hq, ratFloor_eq]
  have hfl : ((⌊q * 100⌋ : ℤ) : ℚ) ≤ q * 100 := Int.floor_le _
  linarith

theorem quantizeDown_ge_cent (m : ℤ) (q : ℚ) (h : (m : ℚ) / 100 ≤ q) :
    (m : ℚ) / 100 ≤ quantizeDown q := by
  have hm : (m : ℚ) ≤ q * 100 := by linarith
  unfold quantizeDown
  split
  · rw [ratFloor_eq]
    have : (m : ℚ) ≤ ((⌊q * 100⌋ : ℤ) : ℚ) := by exact_mod_cast Int.le_floor.mpr hm
    linarith
  · rw [ratFloor_eq]
    have hZ : ⌊-(q * 100)⌋ ≤ -m := by
      have h2 := Int.floor_le_floor (α := ℚ)
        (show -(q * 100) ≤ ((-m : ℤ) : ℚ) by push_cast; linarith)
      rwa [Int.floor_intCast] at h2
    have h3 : ((⌊-(q * 100)⌋ : ℤ) : ℚ) ≤ ((-m : ℤ) : ℚ) := by exact_mod_cast hZ
    push_cast at h3
    linarith

theorem quantizeDown_le_cent (m : ℤ) (q : ℚ) (h : q ≤ (m : ℚ) / 100) :
    quantizeDown q ≤ (m : ℚ) / 100 := by
  have hm : q * 100 ≤ (m : ℚ) := by linarith
  unfold quantizeDown
  split
  · rw [ratFloor_eq]
    have hZ : ⌊q * 100⌋ ≤ m := by
      have h2 := Int.floor_le_floor (α := ℚ)
        (show q * 100 ≤ ((m : ℤ) : ℚ) by linarith)
      rwa [Int.floor_intCast] at h2
    have h3 : ((⌊q * 100⌋ : ℤ) : ℚ) ≤ (m : ℚ) := by exact_mod_cast hZ
    linarith
  · rw [ratFloor_eq]
    have h3 : ((-m : ℤ) : ℚ) ≤ ((⌊-(q * 100)⌋ : ℤ) : ℚ) := by
      exact_mod_cast Int.le_floor.mpr (show ((-m : ℤ) : ℚ) ≤ -(q * 100) by push_cast; linarith)
    push_cast at h3
    linarith

theorem abs_quantizeDown_le (q : ℚ) : |quantizeDown q| ≤ |q| := by
  unfold quantizeDown
  split
  · rename_i hq
    rw [ratFloor_eq]
    have hfl : ((⌊q * 100⌋ : ℤ) : ℚ) ≤ q * 100 := Int.floor_le _
    have h0 : (0:ℤ) ≤ ⌊q * 100⌋ := Int.floor_nonneg.mpr (by positivity)
    have h0Q : (0:ℚ) ≤ ((⌊q * 100⌋ : ℤ) : ℚ) := by exact_mod_cast h0
    rw [abs_of_nonneg (div_nonneg h0Q (by norm_num)), abs_of_nonneg hq]
    linarith
  · rename_i hq
    push_neg at hq
    rw [ratFloor_eq]
    have hfl : ((⌊-(q * 100)⌋ : ℤ) : ℚ) ≤ -(q * 100) := Int.floor_le _
    have h0 : (0:ℤ) ≤ ⌊-(q * 100)⌋ := Int.floor_nonneg.mpr (by nlinarith)
    have h0Q : (0:ℚ) ≤ ((⌊-(q * 100)⌋ : ℤ) : ℚ) := by exact_mod_cast h0
    rw [abs_of_nonpos (neg_nonpos.mpr (div_nonneg h0Q (by norm_num))), abs_of_neg hq, neg_neg]
    linarith

theorem quantizeDown_cents (q : ℚ) : (quantizeDown q * 100).den = 1 := by
  unfold quantizeDown
  split
  · rw [div_mul_cancel₀ _ (by norm_num : (100:ℚ) ≠ 0)]
    exact Rat.den_intCast _
  · rw [neg_mul, div_mul_cancel₀ _ (by norm_num : (100:ℚ) ≠ 0)]
    rw [show -((Rat.floor (-(q * 100)) : ℤ) : ℚ) = ((-Rat.floor (-(q * 100)) : ℤ) : ℚ) by push_cast; ring]
    exact Rat.den_intCast _

theorem halfEvenZ_ge_floor (x : ℚ) : ⌊x⌋ ≤ halfEvenZ x := by
  unfold halfEvenZ
  rw [ratFloor_eq]
  split
  · exact le_refl _
  · split
    · omega
    · split
      · exact le_refl _
      · omega

theorem halfEvenZ_le (x : ℚ) (n : ℤ) (h : x ≤ (n : ℚ)) : halfEvenZ x ≤ n := by
  have hfn : ⌊x⌋ ≤ n := by
    have h2 := Int.floor_le_floor (α := ℚ) h
    rwa [Int.floor_intCast] at h2
  unfold halfEvenZ
  rw [ratFloor_eq]
  split
  · exact hfn
  · rename_i hlt
    push_neg at hlt
    have hne : ((⌊x⌋ : ℤ) : ℚ) < x := by linarith
    have : ⌊x⌋ < n := by
      by_contra hc
      push_neg at hc
      have : (n : ℚ) ≤ ((⌊x⌋ : ℤ) : ℚ) := by exact_mod_cast hc
      linarith
    split
    · omega
    · split
      · omega
      · omega

theorem halfEvenZ_ge (x : ℚ) (n : ℤ) (h : (n : ℚ) ≤ x) : n ≤ halfEvenZ x := by
  have hfn : n ≤ ⌊x⌋ := Int.le_floor.mpr h
  have := halfEvenZ_ge_floor x
  omega

theorem halfEvenZ_near (x : ℚ) : |((halfEvenZ x : ℤ) : ℚ) - x| ≤ 1/2 := by
  have hfl : ((⌊x⌋ : ℤ) : ℚ) ≤ x := Int.floor_le x
  have hfu : x < ((⌊x⌋ : ℤ) : ℚ) + 1 := Int.lt_floor_add_one x
  unfold halfEvenZ
  rw [ratFloor_eq]
  split
  · rename_i hr
    rw [abs_le]
    constructor <;> linarith
  · rename_i hr
    push_neg at hr
    split
    · rename_i hr2
      rw [abs_le]
      push_cast
      constructor <;> linarith
    · rename_i hr2
      push_neg at hr2
      have heq : x - ((⌊x⌋ : ℤ) : ℚ) = 1/2 := le_antisymm hr2 hr
      split
      · rw [abs_le]
        constructor <;> linarith
      · rw [abs_le]
        push_cast
        constructor <;> linarith

theorem pyRound2_near (q : ℚ) : |pyRound2 q - q| ≤ 1/200 := by
  unfold pyRound2
  have h := halfEvenZ_near (q * 100)
  rw [show ((halfEvenZ (q * 100) : ℤ) : ℚ) / 100 - q
      = (((halfEvenZ (q * 100) : ℤ) : ℚ) - q * 100) / 100 by ring]
  rw [abs_div, abs_of_pos (by norm_num : (0:ℚ) < 100)]
  rw [div_le_iff (by norm_num : (0:ℚ) < 100)]
  linarith

theorem pyRound2_ge (q : ℚ) (n : ℤ) (h : (n : ℚ) ≤ q) : (n : ℚ) ≤ pyRound2 q := by
  unfold pyRound2
  have hz : (100 * n : ℤ) ≤ halfEvenZ (q * 100) :=
    halfEvenZ_ge _ _ (by push_cast; linarith)
  have : ((100 * n : ℤ) : ℚ) ≤ ((halfEvenZ (q * 100) : ℤ) : ℚ) := by exact_mod_cast hz
  push_cast at this
  linarith

theorem pyRound2_le (q : ℚ) (n : ℤ) (h : q ≤ (n : ℚ)) : pyRound2 q ≤ (n : ℚ) := by
  unfold pyRound2
  have hz : halfEvenZ (q * 100) ≤ (100 * n : ℤ) :=
    halfEvenZ_le _ _ (by push_cast; linarith)
  have : ((halfEvenZ (q * 100) : ℤ) : ℚ) ≤ ((100 * n : ℤ) : ℚ) := by exact_mod_cast hz
  push_cast at this
  linarith

theorem pyRound2_cents (q : ℚ) : (pyRound2 q * 100).den = 1 := by
  unfold pyRound2
  rw [div_mul_cancel₀ _ (by norm_num : (100:ℚ) ≠ 0)]
  exact Rat.den_intCast _

/-- A rational with two fractional digits is an integer number of cents. -/
theorem cent_exists {q : ℚ} (h : (q * 100).den = 1) : ∃ m : ℤ, q = (m : ℚ) / 100 := by
  refine ⟨(q * 100).num, ?_⟩
  have h2 : (((q * 100).num : ℤ) : ℚ) = q * 100 := (Rat.den_eq_one_iff _).mp h
  rw [h2]
  ring

/-! ## Claim theorems about money generation -/

/-- C4: for all decimal bounds `min ≤ max` with two fractional digits,
`random_money(min, max)` returns a value with exactly two fractional digits
inside `[min, max]`, obtained from the underlying uniform sample by
truncation toward zero at the cent boundary — never rounded up (a
non-negative sample is never exceeded by the result). -/
theorem random_money_bounds_and_truncation (min_val max_val u : ℚ)
    (hm : (min_val * 100).den = 1) (hM : (max_val * 100).den = 1)
    (hle : min_val ≤ max_val) :
    min_val ≤ random_money min_val max_val u ∧
    random_money min_val max_val u ≤ max_val ∧
    (random_money min_val max_val u * 100).den = 1 ∧
    |random_money min_val max_val u| ≤ |uniformQ min_val max_val u| ∧
    (0 ≤ uniformQ min_val max_val u →
      random_money min_val max_val u ≤ uniformQ min_val max_val u) := by
  obtain ⟨m, hmv⟩ := cent_exists hm
  obtain ⟨M, hMv⟩ := cent_exists hM
  unfold random_money
  refine ⟨?_, ?_, quantizeDown_cents _, abs_quantizeDown_le _, fun h0 => quantizeDown_le _ h0⟩
  · rw [hmv]
    exact quantizeDown_ge_cent m _ (by rw [← hmv]; exact uniformQ_ge _ _ u hle)
  · rw [hMv]
    exact quantizeDown_le_cent M _ (by rw [← hMv]; exact uniformQ_le _ _ u hle)

/-- Witness for C4 at `min = 10.00`, `max = 1000.00` and a unit sample whose
uniform value is exactly `12.347`: the result is `12.34` (truncated, never
`12.35`). -/
theorem random_money_bounds_and_truncation_witness :
    (((10:ℚ) * 100).den = 1 ∧ ((1000:ℚ) * 100).den = 1 ∧ (10:ℚ) ≤ 1000) ∧
    ((10:ℚ) ≤ random_money 10 1000 (2347/990000) ∧
      random_money 10 1000 (2347/990000) ≤ 1000 ∧
      (random_money 10 1000 (2347/990000) * 100).den = 1 ∧
      |random_money 10 1000 (2347/990000)| ≤ |uniformQ 10 1000 (2347/990000)| ∧
      (0 ≤ uniformQ 10 1000 (2347/990000) →
        random_money 10 1000 (2347/990000) ≤ uniformQ 10 1000 (2347/990000))) ∧
    uniformQ 10 1000 (2347/990000) = 12347/1000 ∧
    random_money 10 1000 (2347/990000) = 1234/100 :=
  ⟨⟨by decide, by decide, by norm_num⟩,
   random_money_bounds_and_truncation 10 1000 (2347/990000) (by decide) (by decide) (by norm_num),
   by decide, by decide⟩

/-- The transaction amount on source line 148 is
`round(random.uniform(1, MAX_TXN_AMOUNT), 2)`; its uniform sample is always
at least 1. -/
theorem txnAmount_ge_one (u : ℚ) : 1 ≤ pyRound2 (uniformQ 1 MAX_TXN_AMOUNT u) := by
  have h1 : (1:ℚ) ≤ uniformQ 1 MAX_TXN_AMOUNT u :=
    uniformQ_ge 1 MAX_TXN_AMOUNT u (by unfold MAX_TXN_AMOUNT; norm_num)
  exact_mod_cast pyRound2_ge _ 1 (by exact_mod_cast h1)

/-- C9 counterexample: the claim says the amount is uniformly sampled from
`(0, maxTxnAmount]`, but the value `0.50` of that interval is unattainable:
the code samples `random.uniform(1, MAX_TXN_AMOUNT)`, so every amount is at
least 1. -/
theorem txn_amount_interval_not_attainable :
    0 < (1:ℚ)/2 ∧ (1:ℚ)/2 ≤ MAX_TXN_AMOUNT ∧
    ∀ u : ℚ, pyRound2 (uniformQ 1 MAX_TXN_AMOUNT u) ≠ 1/2 := by
  refine ⟨by norm_num, by unfold MAX_TXN_AMOUNT; norm_num, fun u h => ?_⟩
  have := txnAmount_ge_one u
  rw [h] at this
  norm_num at this

/-- C9 (amended): every generated transaction amount comes from a uniform
sample over `[1, maxTxnAmount]` (not `(0, maxTxnAmount]`), then rounded to
two fractional digits by round-to-nearest (Python `round`, ties to even) —
within half a cent of the sample, never plain truncation; `12.347` rounds to
`12.35`. -/
theorem txn_amount_range_and_rounding (u : ℚ) :
    1 ≤ uniformQ 1 MAX_TXN_AMOUNT u ∧
    uniformQ 1 MAX_TXN_AMOUNT u ≤ MAX_TXN_AMOUNT ∧
    1 ≤ pyRound2 (uniformQ 1 MAX_TXN_AMOUNT u) ∧
    pyRound2 (uniformQ 1 MAX_TXN_AMOUNT u) ≤ MAX_TXN_AMOUNT ∧
    (pyRound2 (uniformQ 1 MAX_TXN_AMOUNT u) * 100).den = 1 ∧
    |pyRound2 (uniformQ 1 MAX_TXN_AMOUNT u) - uniformQ 1 MAX_TXN_AMOUNT u| ≤ 1/200 ∧
    (∀ (accounts : List Nat) (g : Nat → ℚ) (si : Nat),
      (genTxn accounts g si).1.amount = pyRound2 (uniformQ 1 MAX_TXN_AMOUNT (g (si + 2)))) ∧
    pyRound2 (12347/1000) = 1235/100 := by
  have hle : (1:ℚ) ≤ MAX_TXN_AMOUNT := by unfold MAX_TXN_AMOUNT; norm_num
  refine ⟨uniformQ_ge 1 MAX_TXN_AMOUNT u hle, uniformQ_le 1 MAX_TXN_AMOUNT u hle,
    txnAmount_ge_one u, ?_, pyRound2_cents _, pyRound2_near _, ?_, by decide⟩
  · have h1000 : uniformQ 1 MAX_TXN_AMOUNT u ≤ ((1000 : ℤ) : ℚ) := by
      have := uniformQ_le 1 MAX_TXN_AMOUNT u hle
      unfold MAX_TXN_AMOUNT at this ⊢
      exact_mod_cast this
    have := pyRound2_le _ 1000 h1000
    unfold MAX_TXN_AMOUNT
    exact_mod_cast this
  · intro accounts g si
    unfold genTxn
    dsimp only
    split <;> rfl

/-- Witness for the amended C9 at the unit sample `1/2`: the sample is
`500.5` and the stored amount is `500.50`. -/
theorem txn_amount_range_and_rounding_witness :
    (1 ≤ uniformQ 1 MAX_TXN_AMOUNT (1/2) ∧
      uniformQ 1 MAX_TXN_AMOUNT (1/2) ≤ MAX_TXN_AMOUNT ∧
      1 ≤ pyRound2 (uniformQ 1 MAX_TXN_AMOUNT (1/2)) ∧
      pyRound2 (uniformQ 1 MAX_TXN_AMOUNT (1/2)) ≤ MAX_TXN_AMOUNT ∧
      (pyRound2 (uniformQ 1 MAX_TXN_AMOUNT (1/2)) * 100).den = 1 ∧
      |pyRound2 (uniformQ 1 MAX_TXN_AMOUNT (1/2)) - uniformQ 1 MAX_TXN_AMOUNT (1/2)| ≤ 1/200 ∧
      (∀ (accounts : List Nat) (g : Nat → ℚ) (si : Nat),
        (genTxn accounts g si).1.amount = pyRound2 (uniformQ 1 MAX_TXN_AMOUNT (g (si + 2)))) ∧
      pyRound2 (12347/1000) = 1235/100) ∧
    uniformQ 1 MAX_TXN_AMOUNT (1/2) = 1001/2 ∧
    pyRound2 (uniformQ 1 MAX_TXN_AMOUNT (1/2)) = 1001/2 :=
  ⟨txn_amount_range_and_rounding (1/2), by decide, by decide⟩

/-! ## Claim theorems about transaction generation (TRANSFER) -/

theorem filter_ne_nonempty {l : List Nat} (hnd : l.Nodup) (hl : 1 < l.length) (a : Nat) :
    l.filter (fun x => x ≠ a) ≠ [] := by
  intro hemp
  have hall : ∀ x ∈ l, x = a := by
    intro x hx
    by_contra hne
    have hmem : x ∈ l.filter (fun x => x ≠ a) :=
      List.mem_filter.mpr ⟨hx, by simpa using hne⟩
    rw [hemp] at hmem
    exact absurd hmem (List.not_mem_nil x)
  match l, hnd, hl, hall with
  | x :: y :: rest, hnd, hl, hall =>
    have hx : x = a := hall x (by simp)
    have hy : y = a := hall y (by simp)
    have : x ≠ y := by
      have := List.nodup_cons.mp hnd
      intro hxy
      exact this.1 (hxy ▸ List.mem_cons_self y rest)
    exact this (hx.trans hy.symm)

/-- Reduction of `genTxn` when the TRANSFER branch is taken. -/
theorem genTxn_pos (accounts : List Nat) (g : Nat → ℚ) (si : Nat)
    (h : pickS txnTypes (g (si+1)) = "TRANSFER" ∧ 1 < accounts.length) :
    genTxn accounts g si =
      (⟨pick accounts (g si), pickS txnTypes (g (si+1)),
        pyRound2 (uniformQ 1 MAX_TXN_AMOUNT (g (si+2))),
        some (pick (accounts.filter (fun a => a ≠ pick accounts (g si))) (g (si+3))),
        "COMPLETED"⟩, si + 4) := by
  unfold genTxn
  dsimp only
  rw [if_pos h]

/-- Reduction of `genTxn` when the TRANSFER branch is not taken. -/
theorem genTxn_neg (accounts : List Nat) (g : Nat → ℚ) (si : Nat)
    (h : ¬(pickS txnTypes (g (si+1)) = "TRANSFER" ∧ 1 < accounts.length)) :
    genTxn accounts g si =
      (⟨pick accounts (g si), pickS txnTypes (g (si+1)),
        pyRound2 (uniformQ 1 MAX_TXN_AMOUNT (g (si+2))), none, "COMPLETED"⟩, si + 3) := by
  unfold genTxn
  dsimp only
  rw [if_neg h]

/-- C6: a generated TRANSFER transaction with at least two (distinct)
accounts in the iteration pool gets a related account drawn from the pool
with the primary account filtered out, hence never equal to `account_id`,
and every other pool member is attainable (the draw ranges over the whole
filtered pool); with fewer than two accounts the transaction keeps its kind
but has no related account. -/
theorem transfer_related_distinct (accounts : List Nat) (g : Nat → ℚ) (si : Nat)
    (hnd : accounts.Nodup) :
    ((genTxn accounts g si).1.txnType = "TRANSFER" → 1 < accounts.length →
      ∃ r, (genTxn accounts g si).1.relatedAccountId = some r ∧ r ∈ accounts ∧
        r ≠ (genTxn accounts g si).1.accountId) ∧
    (accounts.length ≤ 1 → (genTxn accounts g si).1.relatedAccountId = none) ∧
    ((genTxn accounts g si).1.txnType = pickS txnTypes (g (si + 1))) ∧
    (∀ x ∈ accounts, x ≠ (genTxn accounts g si).1.accountId →
      (genTxn accounts g si).1.txnType = "TRANSFER" → 1 < accounts.length →
      ∃ g2 : Nat → ℚ,
        (genTxn accounts g2 si).1.accountId = (genTxn accounts g si).1.accountId ∧
        (genTxn accounts g2 si).1.txnType = (genTxn accounts g si).1.txnType ∧
        (genTxn accounts g2 si).1.relatedAccountId = some x) := by
  by_cases hcond : pickS txnTypes (g (si+1)) = "TRANSFER" ∧ 1 < accounts.length
  · rw [genTxn_pos accounts g si hcond]
    have hfil : accounts.filter (fun a => a ≠ pick accounts (g si)) ≠ [] :=
      filter_ne_nonempty hnd hcond.2 _
    refine ⟨fun _ _ => ?_, fun hlen => ?_, rfl, fun x hx hxne _ _ => ?_⟩
    · have hr := pick_mem hfil (g (si+3))
      simp only [List.mem_filter, decide_eq_true_eq] at hr
      exact ⟨_, rfl, hr.1, hr.2⟩
    · exact absurd hcond.2 (by omega)
    · have hxmem : x ∈ accounts.filter (fun a => a ≠ pick accounts (g si)) :=
        List.mem_filter.mpr ⟨hx, by simpa using hxne⟩
      obtain ⟨i, hi, hget⟩ := List.mem_iff_getElem.mp hxmem
      refine ⟨Function.update g (si + 3)
        (((i : ℚ) + 1/2) / ((accounts.filter (fun a => a ≠ pick accounts (g si))).length : ℚ)), ?_⟩
      have e0 : Function.update g (si + 3)
          (((i : ℚ) + 1/2) / ((accounts.filter (fun a => a ≠ pick accounts (g si))).length : ℚ)) si
          = g si := Function.update_noteq (by omega) _ _
      have e1 : Function.update g (si + 3)
          (((i : ℚ) + 1/2) / ((accounts.filter (fun a => a ≠ pick accounts (g si))).length : ℚ))
          (si + 1) = g (si + 1) := Function.update_noteq (by omega) _ _
      have e3 : Function.update g (si + 3)
          (((i : ℚ) + 1/2) / ((accounts.filter (fun a => a ≠ pick accounts (g si))).length : ℚ))
          (si + 3)
          = ((i : ℚ) + 1/2) / ((accounts.filter (fun a => a ≠ pick accounts (g si))).length : ℚ) :=
        Function.update_same _ _ _
      rw [genTxn_pos accounts _ si (by rw [e1]; exact hcond)]
      refine ⟨by rw [e0], by rw [e1], ?_⟩
      dsimp only
      rw [e0, e3, pick_attain hi, hget]
  · rw [genTxn_neg accounts g si hcond]
    refine ⟨fun ht hlen => absurd ⟨ht, hlen⟩ hcond, fun _ => rfl, rfl,
      fun x hx hxne ht hlen => absurd ⟨ht, hlen⟩ hcond⟩

/-- Witness for C6 on the pool `[1, 2, 3]` with a stream that draws kind
TRANSFER: the related account is a pool member different from the primary. -/
theorem transfer_related_distinct_witness :
    (((genTxn [1, 2, 3] (fun j => if j = 1 then 5/6 else 0) 0).1.txnType = "TRANSFER" →
      1 < ([1, 2, 3] : List Nat).length →
      ∃ r, (genTxn [1, 2, 3] (fun j => if j = 1 then 5/6 else 0) 0).1.relatedAccountId = some r ∧
        r ∈ ([1, 2, 3] : List Nat) ∧
        r ≠ (genTxn [1, 2, 3] (fun j => if j = 1 then 5/6 else 0) 0).1.accountId) ∧
    (([1, 2, 3] : List Nat).length ≤ 1 →
      (genTxn [1, 2, 3] (fun j => if j = 1 then 5/6 else 0) 0).1.relatedAccountId = none) ∧
    ((genTxn [1, 2, 3] (fun j => if j = 1 then 5/6 else 0) 0).1.txnType
      = pickS txnTypes ((fun j => if j = 1 then 5/6 else 0) (0 + 1))) ∧
    (∀ x ∈ ([1, 2, 3] : List Nat),
      x ≠ (genTxn [1, 2, 3] (fun j => if j = 1 then 5/6 else 0) 0).1.accountId →
      (genTxn [1, 2, 3] (fun j => if j = 1 then 5/6 else 0) 0).1.txnType = "TRANSFER" →
      1 < ([1, 2, 3] : List Nat).length →
      ∃ g2 : Nat → ℚ,
        (genTxn [1, 2, 3] g2 0).1.accountId
          = (genTxn [1, 2, 3] (fun j => if j = 1 then 5/6 else 0) 0).1.accountId ∧
        (genTxn [1, 2, 3] g2 0).1.txnType
          = (genTxn [1, 2, 3] (fun j => if j = 1 then 5/6 else 0) 0).1.txnType ∧
        (genTxn [1, 2, 3] g2 0).1.relatedAccountId = some x)) :=
  transfer_related_distinct [1, 2, 3] (fun j => if j = 1 then 5/6 else 0) 0 (by decide)

/-! ## Structure of a fault-free iteration -/

theorem genTxn_accountId (l : List Nat) (g : Nat → ℚ) (si : Nat) :
    (genTxn l g si).1.accountId = pick l (g si) := by
  unfold genTxn
  dsimp only
  split <;> rfl

theorem insertCustomersLoop_ok (F : FaultMap) (g fg : Nat → ℚ) :
    ∀ (n : Nat) (s s1 : GenState), insertCustomersLoop F g fg n s = (s1, none) →
      s1.pendCust.length = s.pendCust.length + n ∧ s1.pendAcct = s.pendAcct ∧
      s1.pendTxn = s.pendTxn := by
  intro n
  induction n with
  | zero =>
    intro s s1 h
    simp only [insertCustomersLoop, Prod.mk.injEq] at h
    rw [← h.1]
    exact ⟨rfl, rfl, rfl⟩
  | succ n ih =>
    intro s s1 h
    simp only [insertCustomersLoop] at h
    rcases hF : F s.step with _ | e
    · rw [hF] at h
      obtain ⟨h1, h2, h3⟩ := ih _ _ h
      refine ⟨?_, h2, h3⟩
      simp only [List.length_append, List.length_cons, List.length_nil] at h1
      omega
    · rw [hF] at h
      simp at h

theorem insertAccountsFor_ok (F : FaultMap) (g : Nat → ℚ) (cid : Nat) :
    ∀ (m : Nat) (s s1 : GenState), insertAccountsFor F g cid m s = (s1, none) →
      s1.pendAcct.length = s.pendAcct.length + m ∧ s1.pendCust = s.pendCust ∧
      s1.pendTxn = s.pendTxn ∧
      (∀ a ∈ s1.pendAcct, a ∈ s.pendAcct ∨ a.customerId = cid) := by
  intro m
  induction m with
  | zero =>
    intro s s1 h
    simp only [insertAccountsFor, Prod.mk.injEq] at h
    rw [← h.1]
    exact ⟨rfl, rfl, rfl, fun a ha => Or.inl ha⟩
  | succ m ih =>
    intro s s1 h
    simp only [insertAccountsFor] at h
    rcases hF : F s.step with _ | e
    · rw [hF] at h
      obtain ⟨h1, h2, h3, h4⟩ := ih _ _ h
      simp only [List.length_append, List.length_cons, List.length_nil] at h1
      refine ⟨by omega, h2, h3, fun a ha => ?_⟩
      rcases h4 a ha with hmem | hcid
      · rcases List.mem_append.mp hmem with h5 | h5
        · exact Or.inl h5
        · simp only [List.mem_singleton] at h5
          subst h5
          exact Or.inr rfl
      · exact Or.inr hcid
    · rw [hF] at h
      simp at h

theorem insertAccountsLoop_ok (F : FaultMap) (g : Nat → ℚ) :
    ∀ (cs : List Nat) (s s1 : GenState), insertAccountsLoop F g cs s = (s1, none) →
      s1.pendAcct.length = s.pendAcct.length + ACCOUNTS_PER_CUSTOMER * cs.length ∧
      s1.pendCust = s.pendCust ∧ s1.pendTxn = s.pendTxn ∧
      (∀ a ∈ s1.pendAcct, a ∈ s.pendAcct ∨ a.customerId ∈ cs) := by
  intro cs
  induction cs with
  | nil =>
    intro s s1 h
    simp only [insertAccountsLoop, Prod.mk.injEq] at h
    rw [← h.1]
    exact ⟨by simp, rfl, rfl, fun a ha => Or.inl ha⟩
  | cons cid rest ih =>
    intro s s1 h
    simp only [insertAccountsLoop] at h
    rcases hA : insertAccountsFor F g cid ACCOUNTS_PER_CUSTOMER s with ⟨sA, fA⟩
    rw [hA] at h
    rcases fA with _ | e
    · obtain ⟨hA1, hA2, hA3, hA4⟩ := insertAccountsFor_ok F g cid _ _ _ hA
      obtain ⟨h1, h2, h3, h4⟩ := ih _ _ h
      refine ⟨?_, h2.trans hA2, h3.trans hA3, fun a ha => ?_⟩
      · rw [h1, hA1, List.length_cons]
        ring
      · rcases h4 a ha with hmem | hcid
        · rcases hA4 a hmem with h5 | h5
          · exact Or.inl h5
          · exact Or.inr (by simp [h5])
        · exact Or.inr (List.mem_cons_of_mem _ hcid)
    · simp at h

theorem insertTxnsLoop_ok (F : FaultMap) (g : Nat → ℚ) :
    ∀ (n : Nat) (s s1 : GenState), insertTxnsLoop F g n s = (s1, none) →
      s1.pendTxn.length = s.pendTxn.length + n ∧ s1.pendAcct = s.pendAcct ∧
      s1.pendCust = s.pendCust ∧
      (s.pendAcct ≠ [] →
        ∀ t ∈ s1.pendTxn, t ∈ s.pendTxn ∨ t.accountId ∈ s.pendAcct.map Account.id) := by
  intro n
  induction n with
  | zero =>
    intro s s1 h
    simp only [insertTxnsLoop, Prod.mk.injEq] at h
    rw [← h.1]
    exact ⟨rfl, rfl, rfl, fun _ t ht => Or.inl ht⟩
  | succ n ih =>
    intro s s1 h
    simp only [insertTxnsLoop] at h
    rcases hF : F s.step with _ | e
    · rw [hF] at h
      obtain ⟨h1, h2, h3, h4⟩ := ih _ _ h
      simp only [List.length_append, List.length_cons, List.length_nil] at h1
      refine ⟨by omega, h2, h3, fun hne t ht => ?_⟩
      rcases h4 (fun hemp => hne hemp) t ht with hmem | hacc
      · rcases List.mem_append.mp hmem with h5 | h5
        · exact Or.inl h5
        · simp only [List.mem_singleton] at h5
          subst h5
          refine Or.inr ?_
          rw [genTxn_accountId]
          exact pick_mem (fun hemp => hne (by simpa using hemp)) _
      · exact Or.inr hacc
    · rw [hF] at h
      simp at h

theorem iterCore_ok (F : FaultMap) (g fg : Nat → ℚ) (si fi : Nat) (db : DBState)
    (h : (iterCore F g fg si fi db).2 = none) :
    (iterCore F g fg si fi db).1.pendCust.length = NUM_CUSTOMERS ∧
    (iterCore F g fg si fi db).1.pendAcct.length = NUM_CUSTOMERS * ACCOUNTS_PER_CUSTOMER ∧
    (iterCore F g fg si fi db).1.pendTxn.length = NUM_TRANSACTIONS ∧
    (∀ a ∈ (iterCore F g fg si fi db).1.pendAcct,
      a.customerId ∈ (iterCore F g fg si fi db).1.pendCust.map Customer.id) ∧
    (∀ t ∈ (iterCore F g fg si fi db).1.pendTxn,
      t.accountId ∈ (iterCore F g fg si fi db).1.pendAcct.map Account.id) := by
  rcases hc : insertCustomersLoop F g fg NUM_CUSTOMERS
      ⟨si, fi, 0, db.nextCust, db.nextAcct, [], [], []⟩ with ⟨s1, f1⟩
  rcases f1 with _ | e1
  swap
  · simp only [iterCore, hc] at h
    exact Option.noConfusion h
  rcases ha : insertAccountsLoop F g (s1.pendCust.map Customer.id) s1 with ⟨s2, f2⟩
  rcases f2 with _ | e2
  swap
  · simp only [iterCore, hc, ha] at h
    exact Option.noConfusion h
  rcases ht : insertTxnsLoop F g NUM_TRANSACTIONS s2 with ⟨s3, f3⟩
  rcases f3 with _ | e3
  swap
  · simp only [iterCore, hc, ha, ht] at h
    exact Option.noConfusion h
  obtain ⟨hc1, hc2, hc3⟩ := insertCustomersLoop_ok F g fg _ _ _ hc
  obtain ⟨ha1, ha2, ha3, ha4⟩ := insertAccountsLoop_ok F g _ _ _ ha
  obtain ⟨ht1, ht2, ht3, ht4⟩ := insertTxnsLoop_ok F g _ _ _ ht
  have hccount : s1.pendCust.length = NUM_CUSTOMERS := by
    simpa using hc1
  have hacount : s2.pendAcct.length = NUM_CUSTOMERS * ACCOUNTS_PER_CUSTOMER := by
    rw [ha1, hc2]
    simp only [List.length_nil, List.length_map, hccount]
    ring
  have htcount : s3.pendTxn.length = NUM_TRANSACTIONS := by
    rw [ht1, ha3, hc3]
    simp
  have hpends : (iterCore F g fg si fi db).1 = s3 := by
    simp only [iterCore, hc, ha, ht]
  rw [hpends]
  have hs3acct : s3.pendAcct = s2.pendAcct := ht2
  have hs3cust : s3.pendCust = s2.pendCust := ht3
  refine ⟨?_, ?_, htcount, ?_, ?_⟩
  · rw [hs3cust, ha2, hccount]
  · rw [hs3acct, hacount]
  · intro a haMem
    rw [hs3acct] at haMem
    rcases ha4 a haMem with h5 | h5
    · rw [hc2] at h5
      exact absurd h5 (List.not_mem_nil a)
    · rw [hs3cust, ha2]
      exact h5
  · intro t htMem
    have hne : s2.pendAcct ≠ [] := by
      intro hemp
      rw [hemp] at hacount
      simp [NUM_CUSTOMERS, ACCOUNTS_PER_CUSTOMER] at hacount
    rcases ht4 hne t htMem with h5 | h5
    · rw [ha3, hc3] at h5
      exact absurd h5 (List.not_mem_nil t)
    · rw [hs3acct]
      exact h5

/-- C5: an iteration whose insert sequence and commit raise no exception
commits exactly `NUM_CUSTOMERS` customers,
`NUM_CUSTOMERS * ACCOUNTS_PER_CUSTOMER` accounts and `NUM_TRANSACTIONS`
transactions, appended to the previously committed tables in dependency
order; every account references a customer of this iteration and every
transaction references an account of this iteration (the pool is the
current iteration, never of a previous one). -/
theorem committed_iteration_counts (F : Nat → FaultMap) (g fg : Nat → ℚ)
    (k si fi : Nat) (db : DBState)
    (h : (iterCore (F k) g fg si fi db).2 = none) :
    (run_iteration F g fg k si fi db).summary.committed = true ∧
    (run_iteration F g fg k si fi db).db.customers
      = db.customers ++ (iterCore (F k) g fg si fi db).1.pendCust ∧
    (run_iteration F g fg k si fi db).db.accounts
      = db.accounts ++ (iterCore (F k) g fg si fi db).1.pendAcct ∧
    (run_iteration F g fg k si fi db).db.transactions
      = db.transactions ++ (iterCore (F k) g fg si fi db).1.pendTxn ∧
    (iterCore (F k) g fg si fi db).1.pendCust.length = NUM_CUSTOMERS ∧
    (iterCore (F k) g fg si fi db).1.pendAcct.length
      = NUM_CUSTOMERS * ACCOUNTS_PER_CUSTOMER ∧
    (iterCore (F k) g fg si fi db).1.pendTxn.length = NUM_TRANSACTIONS ∧
    (∀ a ∈ (iterCore (F k) g fg si fi db).1.pendAcct,
      a.customerId ∈ (iterCore (F k) g fg si fi db).1.pendCust.map Customer.id) ∧
    (∀ t ∈ (iterCore (F k) g fg si fi db).1.pendTxn,
      t.accountId ∈ (iterCore (F k) g fg si fi db).1.pendAcct.map Account.id) := by
  obtain ⟨h1, h2, h3, h4, h5⟩ := iterCore_ok (F k) g fg si fi db h
  refine ⟨?_, ?_, ?_, ?_, h1, h2, h3, h4, h5⟩ <;>
    simp only [run_iteration, h]

/-- Witness for C5: the fault-free all-zero trace commits 10 customers,
20 accounts and 50 transactions into an empty database. -/
theorem committed_iteration_counts_witness :
    (run_iteration (fun _ _ => none) (fun _ => 0) (fun _ => 0) 0 0 0 dbEmpty).summary.committed
        = true ∧
    (run_iteration (fun _ _ => none) (fun _ => 0) (fun _ => 0) 0 0 0 dbEmpty).db.customers
      = dbEmpty.customers
        ++ (iterCore (fun _ => none) (fun _ => 0) (fun _ => 0) 0 0 dbEmpty).1.pendCust ∧
    (run_iteration (fun _ _ => none) (fun _ => 0) (fun _ => 0) 0 0 0 dbEmpty).db.accounts
      = dbEmpty.accounts
        ++ (iterCore (fun _ => none) (fun _ => 0) (fun _ => 0) 0 0 dbEmpty).1.pendAcct ∧
    (run_iteration (fun _ _ => none) (fun _ => 0) (fun _ => 0) 0 0 0 dbEmpty).db.transactions
      = dbEmpty.transactions
        ++ (iterCore (fun _ => none) (fun _ => 0) (fun _ => 0) 0 0 dbEmpty).1.pendTxn ∧
    (iterCore (fun _ => none) (fun _ => 0) (fun _ => 0) 0 0 dbEmpty).1.pendCust.length
      = NUM_CUSTOMERS ∧
    (iterCore (fun _ => none) (fun _ => 0) (fun _ => 0) 0 0 dbEmpty).1.pendAcct.length
      = NUM_CUSTOMERS * ACCOUNTS_PER_CUSTOMER ∧
    (iterCore (fun _ => none) (fun _ => 0) (fun _ => 0) 0 0 dbEmpty).1.pendTxn.length
      = NUM_TRANSACTIONS ∧
    (∀ a ∈ (iterCore (fun _ => none) (fun _ => 0) (fun _ => 0) 0 0 dbEmpty).1.pendAcct,
      a.customerId
        ∈ (iterCore (fun _ => none) (fun _ => 0) (fun _ => 0) 0 0 dbEmpty).1.pendCust.map
            Customer.id) ∧
    (∀ t ∈ (iterCore (fun _ => none) (fun _ => 0) (fun _ => 0) 0 0 dbEmpty).1.pendTxn,
      t.accountId
        ∈ (iterCore (fun _ => none) (fun _ => 0) (fun _ => 0) 0 0 dbEmpty).1.pendAcct.map
            Account.id) :=
  committed_iteration_counts (fun _ _ => none) (fun _ => 0) (fun _ => 0) 0 0 0 dbEmpty
    (by decide)

/-- C2: if any `Exception`-class failure is raised during an iteration
(any insert or the commit), the handler on line 164 rolls the transaction
back — no row of the iteration reaches the committed state — logs the
failure, does not let it escape, and the main loop (in looping mode, with no
pending interrupt) proceeds to the next iteration instead of aborting. -/
theorem iteration_failure_rolls_back (tr : Trace) (st : LoopState) (e : ExcClass)
    (hf : (iterCore (tr.faults st.iter) tr.g tr.fg st.si st.fi st.db).2 = some e)
    (he : isException e = true)
    (hs : tr.sleepInt st.iter = false) :
    (run_iteration tr.faults tr.g tr.fg st.iter st.si st.fi st.db).summary
      = ⟨false, true, true, none⟩ ∧
    (run_iteration tr.faults tr.g tr.fg st.iter st.si st.fi st.db).db.customers
      = st.db.customers ∧
    (run_iteration tr.faults tr.g tr.fg st.iter st.si st.fi st.db).db.accounts
      = st.db.accounts ∧
    (run_iteration tr.faults tr.g tr.fg st.iter st.si st.fi st.db).db.transactions
      = st.db.transactions ∧
    loopBody tr true st = Sum.inr
      ⟨(run_iteration tr.faults tr.g tr.fg st.iter st.si st.fi st.db).db,
       (run_iteration tr.faults tr.g tr.fg st.iter st.si st.fi st.db).si,
       (run_iteration tr.faults tr.g tr.fg st.iter st.si st.fi st.db).fi,
       st.iter + 1, st.iters ++ [⟨false, true, true, none⟩],
       st.reconnects, st.connPos⟩ := by
  have hred : run_iteration tr.faults tr.g tr.fg st.iter st.si st.fi st.db
      = ⟨⟨false, true, true, none⟩,
         ⟨st.db.customers, st.db.accounts, st.db.transactions,
          (iterCore (tr.faults st.iter) tr.g tr.fg st.si st.fi st.db).1.nextCust,
          (iterCore (tr.faults st.iter) tr.g tr.fg st.si st.fi st.db).1.nextAcct⟩,
         (iterCore (tr.faults st.iter) tr.g tr.fg st.si st.fi st.db).1.si,
         (iterCore (tr.faults st.iter) tr.g tr.fg st.si st.fi st.db).1.fi⟩ := by
    simp only [run_iteration, hf, he, if_true]
  refine ⟨by rw [hred], by rw [hred], by rw [hred], by rw [hred], ?_⟩
  simp only [loopBody, hred, hs]
  rfl

def c2Trace : Trace := ⟨fun _ => .success,
  fun k j => if k = 0 ∧ j = 5 then some .operationalError else none,
  fun _ => false, fun _ => 0, fun _ => 0⟩

def c2St : LoopState := ⟨dbEmpty, 0, 0, 0, [], 0, 1⟩

/-- Witness for C2: an `OperationalError` injected on the sixth customer
insert of the first iteration is rolled back and the loop continues. -/
theorem iteration_failure_rolls_back_witness :
    (run_iteration c2Trace.faults c2Trace.g c2Trace.fg c2St.iter c2St.si c2St.fi
        c2St.db).summary = ⟨false, true, true, none⟩ ∧
    (run_iteration c2Trace.faults c2Trace.g c2Trace.fg c2St.iter c2St.si c2St.fi
        c2St.db).db.customers = c2St.db.customers ∧
    (run_iteration c2Trace.faults c2Trace.g c2Trace.fg c2St.iter c2St.si c2St.fi
        c2St.db).db.accounts = c2St.db.accounts ∧
    (run_iteration c2Trace.faults c2Trace.g c2Trace.fg c2St.iter c2St.si c2St.fi
        c2St.db).db.transactions = c2St.db.transactions ∧
    loopBody c2Trace true c2St = Sum.inr
      ⟨(run_iteration c2Trace.faults c2Trace.g c2Trace.fg c2St.iter c2St.si c2St.fi
          c2St.db).db,
       (run_iteration c2Trace.faults c2Trace.g c2Trace.fg c2St.iter c2St.si c2St.fi
          c2St.db).si,
       (run_iteration c2Trace.faults c2Trace.g c2Trace.fg c2St.iter c2St.si c2St.fi
          c2St.db).fi,
       c2St.iter + 1, c2St.iters ++ [⟨false, true, true, none⟩],
       c2St.reconnects, c2St.connPos⟩ :=
  iteration_failure_rolls_back c2Trace c2St ExcClass.operationalError (by decide) (by decide)
    (by decide)

/-! ## Connection retry claims -/

theorem connectLoop_all_fail (o : Nat → ConnAttempt) :
    ∀ (n pos : Nat), (∀ j, j < n → o (pos + j) = .failOperational) →
      connectLoop o pos n = ⟨.exit1, n, n⟩ := by
  intro n
  induction n with
  | zero => intro pos h; rfl
  | succ n ih =>
    intro pos h
    have h0 : o pos = .failOperational := by simpa using h 0 (Nat.succ_pos n)
    simp only [connectLoop, h0]
    rw [ih (pos + 1) (fun j hj => by
      rw [show pos + 1 + j = pos + (j + 1) by omega]
      exact h (j + 1) (by omega))]

theorem connectLoop_raise (o : Nat → ConnAttempt) (e : ExcClass) :
    ∀ (k n pos : Nat), k < n → o (pos + k) = .raiseOther e →
      (∀ j, j < k → o (pos + j) = .failOperational) →
      connectLoop o pos n = ⟨.raised e, k + 1, k⟩ := by
  intro k
  induction k with
  | zero =>
    intro n pos hk hr hb
    match n, hk with
    | m+1, _ =>
      simp only [connectLoop]
      rw [show pos + 0 = pos from rfl] at hr
      rw [hr]
  | succ k ih =>
    intro n pos hk hr hb
    match n, hk with
    | m+1, hk =>
      have h0 : o pos = .failOperational := by simpa using hb 0 (Nat.succ_pos k)
      simp only [connectLoop, h0]
      rw [ih m (pos + 1) (by omega)
        (by rw [show pos + 1 + k = pos + (k + 1) by omega]; exact hr)
        (fun j hj => by
          rw [show pos + 1 + j = pos + (j + 1) by omega]
          exact hb (j + 1) (by omega))]

/-- C10: during connection establishment only `OperationalError` triggers
the retry-with-delay loop (and, on exhaustion, `sys.exit(1)`); an attempt
that raises any other exception class makes `connect_db` propagate it at
once — no further attempt, no sleep for that attempt, no exit-1 path. -/
theorem connect_db_retry_policy (o : Nat → ConnAttempt) (e : ExcClass) (k : Nat)
    (hk : k < connectRetries) (hr : o k = .raiseOther e)
    (hb : ∀ j, j < k → o j = .failOperational) :
    connect_db o 0 = ⟨.raised e, k + 1, k⟩ ∧
    (∀ o2 : Nat → ConnAttempt, (∀ j, j < connectRetries → o2 j = .failOperational) →
      connect_db o2 0 = ⟨.exit1, connectRetries, connectRetries⟩) := by
  constructor
  · exact connectLoop_raise o e k connectRetries 0 hk (by simpa using hr)
      (fun j hj => by simpa using hb j hj)
  · intro o2 h2
    exact connectLoop_all_fail o2 connectRetries 0 (fun j hj => by simpa using h2 j hj)

def raiseOutcomes : Nat → ConnAttempt :=
  fun j => if j = 1 then .raiseOther .interfaceError else .failOperational

/-- Witness for C10: one `OperationalError` then an `InterfaceError`:
`connect_db` stops after the second attempt with the error propagating,
having slept exactly once. -/
theorem connect_db_retry_policy_witness :
    connect_db raiseOutcomes 0 = ⟨.raised .interfaceError, 2, 1⟩ ∧
    (∀ o2 : Nat → ConnAttempt, (∀ j, j < connectRetries → o2 j = .failOperational) →
      connect_db o2 0 = ⟨.exit1, connectRetries, connectRetries⟩) :=
  connect_db_retry_policy raiseOutcomes ExcClass.interfaceError 1 (by decide) (by decide)
    (fun j hj => by
      have hj0 : j = 0 := by omega
      subst hj0
      rfl)

/-- C3: if every connection attempt fails with `OperationalError`, the
initial `connect_db()` (line 100) exhausts its `connectRetries` attempts —
one fixed `connectDelay` sleep per failed attempt — and the process
terminates via `sys.exit(1)` with exit status 1, before the main loop ever
starts: no iteration runs and the database is left exactly as it was. -/
theorem connect_exhaustion_exits_one (tr : Trace) (loop : Bool) (fuel : Nat)
    (db : DBState)
    (h : ∀ j, j < connectRetries → tr.connOutcomes j = .failOperational) :
    runProgram tr loop fuel db = ⟨some 1, db, [], 0, false, none⟩ ∧
    (connect_db tr.connOutcomes 0).sleeps = connectRetries := by
  have hc : connect_db tr.connOutcomes 0 = ⟨.exit1, connectRetries, connectRetries⟩ :=
    connectLoop_all_fail tr.connOutcomes connectRetries 0
      (fun j hj => by simpa using h j hj)
  exact ⟨by simp only [runProgram, hc], by rw [hc]⟩

def allFailTrace : Trace := ⟨fun _ => .failOperational, fun _ _ => none,
  fun _ => false, fun _ => 0, fun _ => 0⟩

/-- Witness for C3: a permanently unreachable database. -/
theorem connect_exhaustion_exits_one_witness :
    runProgram allFailTrace true 3 dbEmpty = ⟨some 1, dbEmpty, [], 0, false, none⟩ ∧
    (connect_db allFailTrace.connOutcomes 0).sleeps = connectRetries :=
  connect_exhaustion_exits_one allFailTrace true 3 dbEmpty (fun _ _ => rfl)

/-! ## Main-loop shutdown claims -/

/-- If an exception escapes `run_iteration`, the iteration committed
nothing: the committed tables are unchanged (only the id sequences may have
advanced). -/
theorem run_iteration_escaped_rows (F : Nat → FaultMap) (g fg : Nat → ℚ)
    (k si fi : Nat) (db : DBState) (e : ExcClass)
    (h : (run_iteration F g fg k si fi db).summary.escaped = some e) :
    (run_iteration F g fg k si fi db).db.customers = db.customers ∧
    (run_iteration F g fg k si fi db).db.accounts = db.accounts ∧
    (run_iteration F g fg k si fi db).db.transactions = db.transactions := by
  rcases hc : (iterCore (F k) g fg si fi db).2 with _ | e2
  · simp only [run_iteration, hc] at h
    exact Option.noConfusion h
  · by_cases hE : isException e2 = true
    · simp only [run_iteration, hc, hE, if_true] at h
      exact Option.noConfusion h
    · rw [Bool.not_eq_true] at hE
      simp [run_iteration, hc, hE]

/-- C7 (amended): whenever the main loop terminates, it does so with exit
status 0 and the session released by the `finally` block — in particular on
a user interrupt.  But the interrupt is not confined to the gap between
iterations: a `KeyboardInterrupt` raised mid-iteration escapes
`run_iteration` (it is not an `Exception`), aborting the in-flight iteration
with neither a commit nor the iteration-boundary rollback; its uncommitted
rows are simply discarded with the session. -/
theorem interrupt_graceful_exit_zero (tr : Trace) (loop : Bool) (st : LoopState)
    (rep : RunReport) (h : loopBody tr loop st = Sum.inl rep) :
    rep.exitCode = some 0 ∧ rep.sessionClosed = true ∧
    ((run_iteration tr.faults tr.g tr.fg st.iter st.si st.fi st.db).summary.escaped
        = some ExcClass.keyboardInterrupt →
      ((run_iteration tr.faults tr.g tr.fg st.iter st.si st.fi st.db).summary.committed
        = false ∧
       (run_iteration tr.faults tr.g tr.fg st.iter st.si st.fi st.db).summary.rolledBack
        = false) ∧
      rep.db.customers = st.db.customers ∧ rep.db.accounts = st.db.accounts ∧
      rep.db.transactions = st.db.transactions) := by
  have hrows := run_iteration_escaped_rows tr.faults tr.g tr.fg st.iter st.si st.fi st.db
  have hflags : ∀ e : ExcClass,
      (run_iteration tr.faults tr.g tr.fg st.iter st.si st.fi st.db).summary.escaped
        = some e →
      (run_iteration tr.faults tr.g tr.fg st.iter st.si st.fi st.db).summary.committed
        = false ∧
      (run_iteration tr.faults tr.g tr.fg st.iter st.si st.fi st.db).summary.rolledBack
        = false := by
    intro e he
    rcases hc : (iterCore (tr.faults st.iter) tr.g tr.fg st.si st.fi st.db).2 with _ | e2
    · simp only [run_iteration, hc] at he
      exact Option.noConfusion he
    · by_cases hE : isException e2 = true
      · simp only [run_iteration, hc, hE, if_true] at he
        exact Option.noConfusion he
      · rw [Bool.not_eq_true] at hE
        simp [run_iteration, hc, hE]
  simp only [loopBody] at h
  rcases hE : (run_iteration tr.faults tr.g tr.fg st.iter st.si st.fi st.db).summary.escaped
    with _ | e
  · rw [hE] at h
    dsimp only at h
    split at h
    · split at h
      · rw [Sum.inl.injEq] at h
        subst h
        exact ⟨rfl, rfl, fun hk => Option.noConfusion hk⟩
      · simp at h
    · rw [Sum.inl.injEq] at h
      subst h
      exact ⟨rfl, rfl, fun hk => Option.noConfusion hk⟩
  · rw [hE] at h
    cases e <;>
      (dsimp only at h
       rw [Sum.inl.injEq] at h
       subst h
       exact ⟨rfl, rfl, fun _ =>
         ⟨hflags _ hE, (hrows _ hE).1, (hrows _ hE).2.1, (hrows _ hE).2.2⟩⟩)

/-- A `KeyboardInterrupt` delivered while the sixth customer insert of the
first iteration is executing. -/
def kiTrace : Trace := ⟨fun _ => .success,
  fun k j => if k = 0 ∧ j = 5 then some .keyboardInterrupt else none,
  fun _ => false, fun _ => 0, fun _ => 0⟩

/-- C7 counterexample: an interrupt arriving mid-iteration is acted on at
once — the run shuts down (exit 0) with its single iteration having reached
neither commit nor the iteration-boundary rollback (`KeyboardInterrupt` is
not caught by the `except (Exception, ProgrammingError)` handler), even
though five inserts had already executed (the customer id sequence
advanced to 5). -/
theorem interrupt_mid_iteration_aborts :
    (runProgram kiTrace true 2 dbEmpty).exitCode = some 0 ∧
    (runProgram kiTrace true 2 dbEmpty).iters
      = [⟨false, false, false, some .keyboardInterrupt⟩] ∧
    (runProgram kiTrace true 2 dbEmpty).db = ⟨[], [], [], 5, 0⟩ := by
  decide

def kiSt : LoopState := ⟨dbEmpty, 0, 0, 0, [], 0, 1⟩

def kiRep : RunReport :=
  ⟨some 0, ⟨[], [], [], 5, 0⟩, [⟨false, false, false, some .keyboardInterrupt⟩], 0,
   true, none⟩

/-- Witness for the amended C7 on the mid-iteration-interrupt run. -/
theorem interrupt_graceful_exit_zero_witness :
    kiRep.exitCode = some 0 ∧ kiRep.sessionClosed = true ∧
    ((run_iteration kiTrace.faults kiTrace.g kiTrace.fg kiSt.iter kiSt.si kiSt.fi
          kiSt.db).summary.escaped = some ExcClass.keyboardInterrupt →
      ((run_iteration kiTrace.faults kiTrace.g kiTrace.fg kiSt.iter kiSt.si kiSt.fi
          kiSt.db).summary.committed = false ∧
       (run_iteration kiTrace.faults kiTrace.g kiTrace.fg kiSt.iter kiSt.si kiSt.fi
          kiSt.db).summary.rolledBack = false) ∧
      kiRep.db.customers = kiSt.db.customers ∧ kiRep.db.accounts = kiSt.db.accounts ∧
      kiRep.db.transactions = kiSt.db.transactions) :=
  interrupt_graceful_exit_zero kiTrace true kiSt kiRep (by decide)

/-- An `InterfaceError` raised by the fourth customer insert of the first
iteration, in looping mode. -/
def ifaceTrace : Trace := ⟨fun _ => .success,
  fun k j => if k = 0 ∧ j = 3 then some .interfaceError else none,
  fun _ => false, fun _ => 0, fun _ => 0⟩

/-- C1: a disconnection (`InterfaceError`) raised during an iteration never
crosses the iteration boundary: `InterfaceError` is a subclass of
`Exception`, so the handler on line 164 catches it, rolls back and returns;
the loop then simply runs the next iteration.  `reconnect` is never invoked
(the `except InterfaceError` handler on line 187 is unreachable from
iteration errors — and it sits outside the `while` loop, so even if it ran
it would fall into `finally` and exit rather than resume). -/
theorem interfaceError_swallowed_no_reconnect :
    isException .interfaceError = true ∧
    (runProgram ifaceTrace true 2 dbEmpty).iters
      = [⟨false, true, true, none⟩, ⟨true, false, false, none⟩] ∧
    (runProgram ifaceTrace true 2 dbEmpty).reconnects = 0 ∧
    (runProgram ifaceTrace true 2 dbEmpty).exitCode = none := by
  decide

/-! ## Seeding (C8) -/

/-- Two ambient (entropy-initialised) states of the stdlib random generator,
as would occur in two separate unseeded runs. -/
def ambA : Nat → ℚ := fun _ => 0

def ambB : Nat → ℚ := fun _ => 1/2

/-- A benign environment whose stdlib random stream is `g`. -/
def mkTrace (g : Nat → ℚ) : Trace :=
  ⟨fun _ => .success, fun _ _ => none, fun _ => false, g, fun _ => 0⟩

/-- C8: `if args.seed:` treats the integer seed 0 as absent (falsy), so with
`--seed 0` the generator is never seeded: the ambient state stays in effect
and two runs can produce different data — the promised determinism fails for
seed 0 (for a non-zero seed the stream is a function of the seed alone and
two runs coincide). -/
theorem seed_zero_ignored_nondeterministic :
    applySeed (some 0) ambA = ambA ∧ applySeed (some 0) ambB = ambB ∧
    (runProgram (mkTrace (applySeed (some 0) ambA)) false 2 dbEmpty).db ≠
      (runProgram (mkTrace (applySeed (some 0) ambB)) false 2 dbEmpty).db ∧
    runProgram (mkTrace (applySeed (some 17) ambA)) false 2 dbEmpty
      = runProgram (mkTrace (applySeed (some 17) ambB)) false 2 dbEmpty := by
  refine ⟨rfl, rfl, ?_, rfl⟩
  decide

end FakerGen

end RatEval
